import Mathlib

/-!
# fxswap-refuel: verification of the spec against the code

Shallow embedding of the fxswap-refuel repository.

The repository ships two mock Vyper contracts inside its test files
(`tests/test_refuel.py`, `tests/test_factory.py`): a mock ERC20 token
(`MOCK_ERC20`) and a mock two-coin AMM pool (`MOCK_POOL`).  Those are
translated here directly from the Vyper source.

The production contracts `contracts/Refuel.vy` and
`contracts/RefuelFactory.vy` are referenced by the tests and the deploy
scripts but their source is not part of the repository snapshot; the
definitions for them below are modelled from the specification
(each such definition carries a doc comment starting with
`Modelled from the spec:`).

Machine integers: Vyper `uint256` arithmetic is checked — additions and
multiplications revert when the mathematical result is `≥ 2^256`,
subtractions revert when the result would be negative, and division by
zero reverts.  We embed values as `Nat` and every checked operation as
an `Except Err Nat`, so a revert is an `Except.error`.

Addresses are embedded as `Nat`; address `0` is `empty(address)`.
-/

/-- One past the largest `uint256` value. -/
def U256 : Nat := 2 ^ 256

/-- Failure causes.  The first group names the revert reasons of the
(spec-modelled) Refuel / RefuelFactory contracts; the second group names
the assertion messages of the mock token and mock pool; the last group
marks checked-arithmetic reverts. -/
inductive Err where
  | Unauthorized
  | InvalidPool
  | InvalidAmount
  | InvalidOwner
  | ThresholdOutOfRange
  | PoolNotSet
  | AmountNotSet
  | AlreadyInitialized
  | InsufficientShares
  | ThresholdNotMet
  | IndexOutOfRange
  | InsufficientBalance
  | InsufficientAllowance
  | InsufficientLpBalance
  | Overflow
  | Underflow
  | DivByZero
  deriving DecidableEq, Repr

/-- Checked `uint256` addition: reverts (with `Overflow`) at `2^256`. -/
def cadd (x y : Nat) : Except Err Nat :=
  if x + y < U256 then .ok (x + y) else .error .Overflow

/-- Checked `uint256` subtraction: reverts when the result would be
negative. -/
def csub (x y : Nat) : Except Err Nat :=
  if y ≤ x then .ok (x - y) else .error .Underflow

/-- Checked `uint256` multiplication: reverts (with `Overflow`) at
`2^256`. -/
def cmul (x y : Nat) : Except Err Nat :=
  if x * y < U256 then .ok (x * y) else .error .Overflow

/-- Checked floor division: reverts on a zero divisor. -/
def cdiv (x y : Nat) : Except Err Nat :=
  if y = 0 then .error .DivByZero else .ok (x / y)

/-- Pointwise update of a one-key map (`HashMap[address, uint256]`). -/
def updFn (f : Nat → Nat) (k v : Nat) : Nat → Nat :=
  fun x => if x = k then v else f x

/-- Pointwise update of a two-key map
(`HashMap[address, HashMap[address, uint256]]`). -/
def updFn2 (f : Nat → Nat → Nat) (a b v : Nat) : Nat → Nat → Nat :=
  fun x y => if x = a ∧ y = b then v else f x y

/-! ## Mock ERC20 token (`MOCK_ERC20`, tests/test_refuel.py lines 10-47) -/

/-- Storage of the mock ERC20 token. -/
structure TokenState where
  balanceOf : Nat → Nat
  totalSupply : Nat
  allowance : Nat → Nat → Nat

/-- `transfer(to, amount)` of the mock ERC20, with `msg.sender` made
explicit as the first argument.  Asserts the sender balance, then
performs the checked balance updates in source order. -/
def TokenState.transfer (t : TokenState) (sender dst amount : Nat) :
    Except Err TokenState :=
  if t.balanceOf sender < amount then .error .InsufficientBalance
  else
    let b1 := updFn t.balanceOf sender (t.balanceOf sender - amount)
    do
      let v ← cadd (b1 dst) amount
      .ok { t with balanceOf := updFn b1 dst v }

/-- `approve(spender, amount)` of the mock ERC20 (`msg.sender` explicit). -/
def TokenState.approve (t : TokenState) (sender spender amount : Nat) :
    TokenState :=
  { t with allowance := updFn2 t.allowance sender spender amount }

/-- `transferFrom(sender, to, amount)` of the mock ERC20; `caller` is
`msg.sender` (the spender). -/
def TokenState.transferFrom (t : TokenState) (caller sender dst amount : Nat) :
    Except Err TokenState :=
  if t.balanceOf sender < amount then .error .InsufficientBalance
  else if t.allowance sender caller < amount then .error .InsufficientAllowance
  else
    let b1 := updFn t.balanceOf sender (t.balanceOf sender - amount)
    do
      let v ← cadd (b1 dst) amount
      .ok { t with
              balanceOf := updFn b1 dst v,
              allowance :=
                updFn2 t.allowance sender caller
                  (t.allowance sender caller - amount) }

/-- `mint(to, amount)` of the mock ERC20. -/
def TokenState.mint (t : TokenState) (dst amount : Nat) :
    Except Err TokenState := do
  let v ← cadd (t.balanceOf dst) amount
  let s ← cadd t.totalSupply amount
  .ok { t with balanceOf := updFn t.balanceOf dst v, totalSupply := s }

/-! ## Mock FXSwap pool (`MOCK_POOL`, tests/test_refuel.py lines 50-155) -/

/-- Storage of the mock pool: two coin reserves, the LP total supply, the
two coin addresses, and the LP share balances. -/
structure PoolState where
  bal0 : Nat
  bal1 : Nat
  totalSupply : Nat
  coin0 : Nat
  coin1 : Nat
  lp_balances : Nat → Nat

/-- `_calc_token_amount_internal(amounts, is_deposit)` of the mock pool:
returns 0 when the total supply is 0, computes each per-coin LP value
only under a positive-reserve guard, takes the minimum, and applies a 3%
deposit haircut. -/
def PoolState.calc_token_amount_internal (p : PoolState)
    (a0 a1 : Nat) (is_deposit : Bool) : Except Err Nat :=
  if p.totalSupply = 0 then .ok 0
  else do
    let lp0 ←
      if 0 < p.bal0 then do
        let n ← cmul a0 p.totalSupply
        cdiv n p.bal0
      else .ok 0
    let lp1 ←
      if 0 < p.bal1 then do
        let n ← cmul a1 p.totalSupply
        cdiv n p.bal1
      else .ok 0
    if is_deposit then do
      let m ← cmul (min lp0 lp1) 97
      .ok (m / 100)
    else .ok (min lp0 lp1)

/-- `calc_token_amount(amounts, is_deposit)` — the external view; it
delegates to `_calc_token_amount_internal`. -/
def PoolState.calc_token_amount (p : PoolState)
    (a0 a1 : Nat) (is_deposit : Bool) : Except Err Nat :=
  p.calc_token_amount_internal a0 a1 is_deposit

/-- `transfer(to, amount)` of the mock pool's LP token (`msg.sender`
explicit). -/
def PoolState.transfer (p : PoolState) (sender dst amount : Nat) :
    Except Err PoolState :=
  if p.lp_balances sender < amount then .error .InsufficientLpBalance
  else
    let b1 := updFn p.lp_balances sender (p.lp_balances sender - amount)
    do
      let v ← cadd (b1 dst) amount
      .ok { p with lp_balances := updFn b1 dst v }

/-- `balanceOf(account)` of the mock pool — the LP balance view. -/
def PoolState.balanceOf (p : PoolState) (account : Nat) : Nat :=
  p.lp_balances account

/-- `mint_lp(to, amount)` of the mock pool. -/
def PoolState.mint_lp (p : PoolState) (dst amount : Nat) :
    Except Err PoolState := do
  let v ← cadd (p.lp_balances dst) amount
  let s ← cadd p.totalSupply amount
  .ok { p with lp_balances := updFn p.lp_balances dst v, totalSupply := s }

/-- The on-chain world the pool operates in: the two coin tokens, the
pool, and the pool's own address (needed because the pool is
`msg.sender` of its coin transfers).  Per the test fixtures the pool's
`coins[0]` / `coins[1]` are wired to `token0` / `token1`. -/
structure Chain where
  token0 : TokenState
  token1 : TokenState
  pool : PoolState
  poolAddr : Nat

/-- `remove_liquidity(amount, min_amounts, receiver)` of the mock pool
(`msg.sender` explicit as `sender`).  Follows the Vyper source order:
compute the two proportional coin amounts, update reserves and total
supply, transfer the coins out, decrement the sender's LP balance.
Returns the withdrawn coin amounts.  The `min_amounts` parameters are
part of the signature but never read by the source. -/
def Chain.remove_liquidity (ch : Chain) (sender amount : Nat)
    (min0 min1 : Nat) (receiver : Nat) :
    Except Err (Chain × Nat × Nat) := do
  let p := ch.pool
  let n0 ← cmul p.bal0 amount
  let t0 ← cdiv n0 p.totalSupply
  let n1 ← cmul p.bal1 amount
  let t1 ← cdiv n1 p.totalSupply
  let b0 ← csub p.bal0 t0
  let b1 ← csub p.bal1 t1
  let ts ← csub p.totalSupply amount
  let tok0 ← ch.token0.transfer ch.poolAddr receiver t0
  let tok1 ← ch.token1.transfer ch.poolAddr receiver t1
  let lpS ← csub (p.lp_balances sender) amount
  .ok ({ ch with
          token0 := tok0, token1 := tok1,
          pool := { p with
                      bal0 := b0, bal1 := b1, totalSupply := ts,
                      lp_balances := updFn p.lp_balances sender lpS } },
       t0, t1)

/-- `add_liquidity(amounts, min_mint_amount, receiver, donation)` of the
mock pool (`msg.sender` explicit as `sender`).  Pulls the two coin
amounts in via `transferFrom`, quotes the LP amount on the pre-deposit
reserves, updates reserves and total supply, and credits the minted LP
to the zero address when `donation` is set, to `receiver` otherwise.
The `min_mint_amount` parameter is part of the signature but never read
by the source. -/
def Chain.add_liquidity (ch : Chain) (sender a0 a1 : Nat)
    (min_mint_amount : Nat) (receiver : Nat) (donation : Bool) :
    Except Err (Chain × Nat) := do
  let tok0 ← ch.token0.transferFrom ch.poolAddr sender ch.poolAddr a0
  let tok1 ← ch.token1.transferFrom ch.poolAddr sender ch.poolAddr a1
  let lp ← ch.pool.calc_token_amount_internal a0 a1 true
  let b0 ← cadd ch.pool.bal0 a0
  let b1 ← cadd ch.pool.bal1 a1
  let ts ← cadd ch.pool.totalSupply lp
  let dest := if donation then 0 else receiver
  let v ← cadd (ch.pool.lp_balances dest) lp
  .ok ({ ch with
          token0 := tok0, token1 := tok1,
          pool := { ch.pool with
                      bal0 := b0, bal1 := b1, totalSupply := ts,
                      lp_balances := updFn ch.pool.lp_balances dest v } },
       lp)

/-! ## The Refuel instance (contracts/Refuel.vy — modelled from the spec) -/

/-- Modelled from the spec: storage of a `Refuel.vy` instance
(`contracts/Refuel.vy` is not part of the repository snapshot; fields
follow §3 of the spec and the storage getters exercised by the tests:
`owner`, `pool`, `refuel_lp_amount`, `donation_share_threshold`,
`fee_recipient`, `initialized`). -/
structure RefuelState where
  owner : Nat
  pool : Nat
  refuel_lp_amount : Nat
  donation_share_threshold : Nat
  fee_recipient : Nat
  initialized : Bool

/-- A Refuel instance together with the chain it lives on and its own
address (the instance is the holder of LP shares and the
`msg.sender` of its pool interactions). -/
structure World where
  chain : Chain
  refuel : RefuelState
  selfAddr : Nat

/-- Modelled from the spec: `initialize(owner, fee_recipient)` of
`Refuel.vy` — one-time setup; fails with `AlreadyInitialized` when the
latch is set, otherwise records owner and fee recipient and flips the
latch (spec §4.1). -/
def Refuel.init_once (o fr : Nat) (w : World) : Except Err World :=
  if w.refuel.initialized then .error .AlreadyInitialized
  else .ok { w with refuel :=
    { w.refuel with owner := o, fee_recipient := fr, initialized := true } }

/-- Modelled from the spec: `set_pool(address)` of `Refuel.vy` —
owner-only, rejects the zero address (spec §4.1). -/
def Refuel.set_pool (c a : Nat) (w : World) : Except Err World :=
  if c ≠ w.refuel.owner then .error .Unauthorized
  else if a = 0 then .error .InvalidPool
  else .ok { w with refuel := { w.refuel with pool := a } }

/-- Modelled from the spec: `set_refuel_amount(amount)` of `Refuel.vy` —
owner-only, rejects a zero amount (spec §4.1). -/
def Refuel.set_refuel_amount (c a : Nat) (w : World) : Except Err World :=
  if c ≠ w.refuel.owner then .error .Unauthorized
  else if a = 0 then .error .InvalidAmount
  else .ok { w with refuel := { w.refuel with refuel_lp_amount := a } }

/-- Modelled from the spec: `set_donation_threshold(bps)` of `Refuel.vy`
— owner-only, rejects values above 10000 bps (spec §4.1). -/
def Refuel.set_donation_threshold (c b : Nat) (w : World) : Except Err World :=
  if c ≠ w.refuel.owner then .error .Unauthorized
  else if 10000 < b then .error .ThresholdOutOfRange
  else .ok { w with refuel := { w.refuel with donation_share_threshold := b } }

/-- Modelled from the spec: `transfer_ownership(newOwner)` of
`Refuel.vy` — owner-only, rejects the zero address (spec §4.1). -/
def Refuel.transfer_ownership (c n : Nat) (w : World) : Except Err World :=
  if c ≠ w.refuel.owner then .error .Unauthorized
  else if n = 0 then .error .InvalidOwner
  else .ok { w with refuel := { w.refuel with owner := n } }

/-- Modelled from the spec: `get_lp_balance()` of `Refuel.vy` — returns
0 when the pool is unset, the instance's LP balance at the pool
otherwise; never fails (spec §4.1). -/
def Refuel.get_lp_balance (w : World) : Nat :=
  if w.refuel.pool = 0 then 0
  else w.chain.pool.lp_balances w.selfAddr

/-- Modelled from the spec: `calculate_donation_share()` of `Refuel.vy`
— view; fails with `PoolNotSet` / `AmountNotSet`, otherwise quotes the
round-trip efficiency of withdrawing `refuel_lp_amount` shares
(proportional coin amounts at the current reserves) and re-depositing
them, in basis points of `refuel_lp_amount`, capped at 10000
(spec §4.1). -/
def Refuel.calculate_donation_share (w : World) : Except Err Nat :=
  if w.refuel.pool = 0 then .error .PoolNotSet
  else if w.refuel.refuel_lp_amount = 0 then .error .AmountNotSet
  else do
    let p := w.chain.pool
    let r := w.refuel.refuel_lp_amount
    let n0 ← cmul p.bal0 r
    let a0 ← cdiv n0 p.totalSupply
    let n1 ← cmul p.bal1 r
    let a1 ← cdiv n1 p.totalSupply
    let lp ← p.calc_token_amount_internal a0 a1 true
    let sh ← cmul lp 10000
    .ok (min (sh / r) 10000)

/-- Modelled from the spec: steps 1-4 of `refuel()` plus the efficiency
computation of step 5 (spec §4.1), parameterised over the instance
configuration so that it is syntactically independent of the donation
threshold.  Checks caller/pool/amount/balance preconditions, pays the
fixed 5% fee (`R * 500 / 10000` LP shares, computed against the
pre-removal share amount) to the fee recipient, removes the remaining
`R - fee` shares, approves and re-deposits the withdrawn coin amounts
as a donation, and returns the new chain, the donated share amount, and
the efficiency `donated * 10000 / R` in basis points. -/
def Refuel.refuelStepsCore (c selfA ownA poolH R feeR : Nat) (ch : Chain) :
    Except Err (Chain × Nat × Nat) :=
  if c ≠ ownA then .error .Unauthorized
  else if poolH = 0 then .error .PoolNotSet
  else if R = 0 then .error .AmountNotSet
  else if ch.pool.lp_balances selfA < R then .error .InsufficientShares
  else do
    let fp ← cmul R 500
    let fee := fp / 10000
    let pf ← ch.pool.transfer selfA feeR fee
    let ch1 : Chain := { ch with pool := pf }
    let (ch2, t0, t1) ← ch1.remove_liquidity selfA (R - fee) 0 0 selfA
    let ch3 : Chain := { ch2 with
        token0 := ch2.token0.approve selfA ch.poolAddr t0,
        token1 := ch2.token1.approve selfA ch.poolAddr t1 }
    let (ch4, donated) ← ch3.add_liquidity selfA t0 t1 0 selfA true
    let sp ← cmul donated 10000
    .ok (ch4, donated, sp / R)

/-- Steps 1-4 of `refuel()` on a world: `refuelStepsCore` applied to the
instance's stored configuration. -/
def Refuel.refuelSteps (c : Nat) (w : World) : Except Err (Chain × Nat × Nat) :=
  Refuel.refuelStepsCore c w.selfAddr w.refuel.owner w.refuel.pool
    w.refuel.refuel_lp_amount w.refuel.fee_recipient w.chain

/-- The efficiency (in basis points) that `refuel()` computes in step 5,
when the steps run to completion. -/
def Refuel.refuelShare (c : Nat) (w : World) : Except Err Nat :=
  (Refuel.refuelSteps c w).map (fun r => r.2.2)

/-- Modelled from the spec: `refuel()` of `Refuel.vy` — runs the steps
and commits if and only if the computed efficiency reaches the donation
threshold (inclusive lower bound); otherwise fails with
`ThresholdNotMet` (spec §4.1, step 5). -/
def Refuel.refuel (c : Nat) (w : World) : Except Err (World × Nat) :=
  match Refuel.refuelSteps c w with
  | .error e => .error e
  | .ok (ch, donated, share) =>
      if w.refuel.donation_share_threshold ≤ share then
        .ok ({ w with chain := ch }, donated)
      else .error .ThresholdNotMet

/-- The externally observable outcome of a `refuel()` transaction: on a
revert the pre-call world persists (EVM rollback), on success the new
world does. -/
def Refuel.callRefuel (c : Nat) (w : World) : World × Except Err Nat :=
  match Refuel.refuel c w with
  | .ok (w2, d) => (w2, .ok d)
  | .error e => (w, .error e)

/-- Modelled from the spec: `withdraw_lp_tokens(amount)` of `Refuel.vy`
— owner-only escape hatch moving LP shares from the instance to the
owner (spec §4.1). -/
def Refuel.withdraw_lp_tokens (c amt : Nat) (w : World) : Except Err World :=
  if c ≠ w.refuel.owner then .error .Unauthorized
  else do
    let pf ← w.chain.pool.transfer w.selfAddr w.refuel.owner amt
    .ok { w with chain := { w.chain with pool := pf } }

/-- Modelled from the spec: `withdraw_tokens(token, amount)` of
`Refuel.vy` — owner-only escape hatch moving coin tokens from the
instance to the owner; in the two-token world the `token` argument is a
selector for `token0` / `token1` (spec §4.1). -/
def Refuel.withdraw_tokens (c : Nat) (tok : Bool) (amt : Nat) (w : World) :
    Except Err World :=
  if c ≠ w.refuel.owner then .error .Unauthorized
  else if tok then do
    let t ← w.chain.token0.transfer w.selfAddr w.refuel.owner amt
    .ok { w with chain := { w.chain with token0 := t } }
  else do
    let t ← w.chain.token1.transfer w.selfAddr w.refuel.owner amt
    .ok { w with chain := { w.chain with token1 := t } }

/-! ## The factory (contracts/RefuelFactory.vy — modelled from the spec) -/

/-- Modelled from the spec: storage of `RefuelFactory.vy` — owner,
blueprint reference, the append-only deployment ledger, plus the
factory's own address (it is the default fee recipient and the holder
of collected fees, spec §3). -/
structure FactoryState where
  owner : Nat
  blueprint : Nat
  deployments : List Nat
  addr : Nat

/-- Modelled from the spec: the address of the next instance the factory
creates.  CREATE-style address derivation is deterministic in the
creator's address and nonce and never reuses an address; we model it as
an injective function of the factory address and the number of prior
deployments. -/
def Factory.fresh_address (f : FactoryState) : Nat :=
  f.addr + f.deployments.length + 1

/-- Modelled from the spec: `deploy_refuel(owner, feeRecipient)` of
`RefuelFactory.vy` — creates an instance from the blueprint, initializes
it with the given owner and fee recipient, appends the new address to
the ledger, and returns it (spec §4.2; the instance-side effect of the
embedded `initialize` call is covered by `Refuel.init_once`). -/
def Factory.deploy_refuel (f : FactoryState) (o fr : Nat) :
    FactoryState × Nat :=
  let a := Factory.fresh_address f
  ({ f with deployments := f.deployments ++ [a] }, a)

/-- Modelled from the spec: `deploy_refuel_simple(owner)` of
`RefuelFactory.vy` — convenience wrapper with the factory itself as fee
recipient (spec §4.2). -/
def Factory.deploy_refuel_simple (f : FactoryState) (o : Nat) :
    FactoryState × Nat :=
  Factory.deploy_refuel f o f.addr

/-- Modelled from the spec: `deployment_count()` of `RefuelFactory.vy`. -/
def Factory.deployment_count (f : FactoryState) : Nat :=
  f.deployments.length

/-- Modelled from the spec: `get_deployment(index)` of
`RefuelFactory.vy` — fails with `IndexOutOfRange` when the index is not
below the count, otherwise looks up the address in insertion order
(spec §4.2). -/
def Factory.get_deployment (f : FactoryState) (i : Nat) : Except Err Nat :=
  if h : i < f.deployments.length then .ok (f.deployments.get ⟨i, h⟩)
  else .error .IndexOutOfRange

/-- Modelled from the spec: `get_fee_balance(pool)` of
`RefuelFactory.vy` — the factory's own LP balance at the pool is its fee
balance (derived, not stored; spec §3/§4.2). -/
def Factory.get_fee_balance (f : FactoryState) (p : PoolState) : Nat :=
  p.lp_balances f.addr

/-- A full deployment: one Refuel instance world plus the factory. -/
structure Sys where
  world : World
  factory : FactoryState

/-- Modelled from the spec: `update_blueprint(newBlueprint)` of
`RefuelFactory.vy` — owner-only; affects only future creations
(spec §4.2). -/
def Factory.update_blueprint (c b : Nat) (s : Sys) : Except Err Sys :=
  if c ≠ s.factory.owner then .error .Unauthorized
  else .ok { s with factory := { s.factory with blueprint := b } }

/-- Modelled from the spec: `withdraw_fees(pool, to, amount)` of
`RefuelFactory.vy` — owner-only; moves collected LP fees out of the
factory, relying on the LP token transfer to fail on an excessive
amount (spec §4.2). -/
def Factory.withdraw_fees (c dst amt : Nat) (s : Sys) : Except Err Sys :=
  if c ≠ s.factory.owner then .error .Unauthorized
  else do
    let pf ← s.world.chain.pool.transfer s.factory.addr dst amt
    .ok { s with world :=
      { s.world with chain := { s.world.chain with pool := pf } } }

/-- Modelled from the spec: `withdraw_all_fees(pool, to)` of
`RefuelFactory.vy` — owner-only; withdraws the factory's whole current
fee balance (spec §4.2). -/
def Factory.withdraw_all_fees (c dst : Nat) (s : Sys) : Except Err Sys :=
  if c ≠ s.factory.owner then .error .Unauthorized
  else do
    let amt := s.world.chain.pool.lp_balances s.factory.addr
    let pf ← s.world.chain.pool.transfer s.factory.addr dst amt
    .ok { s with world :=
      { s.world with chain := { s.world.chain with pool := pf } } }

/-- Modelled from the spec: `transfer_ownership(newOwner)` of
`RefuelFactory.vy` — owner-only, rejects the zero address (spec §4.2). -/
def Factory.transfer_ownership (c n : Nat) (s : Sys) : Except Err Sys :=
  if c ≠ s.factory.owner then .error .Unauthorized
  else if n = 0 then .error .InvalidOwner
  else .ok { s with factory := { s.factory with owner := n } }

/-! ## Concrete fixture states (the test fixtures of tests/test_refuel.py
and tests/test_factory.py, after the standard setup)

Addresses: `0` = zero address, `1`/`2` = token deployers, `3` = instance
owner, `4` = unrelated user, `5` = pool, `6` = Refuel instance,
`7` = factory, `10`/`11` = token0/token1. -/

/-- `10^18`, the fixed-point unit of the tests. -/
def e18 : Nat := 10 ^ 18

/-- token0 after the `pool` fixture: deployer holds 1000000e18, the pool
was minted 100000e18. -/
def tok0Fix : TokenState :=
  { balanceOf := fun a =>
      if a = 5 then 100000 * e18 else if a = 1 then 1000000 * e18 else 0,
    totalSupply := 1100000 * e18,
    allowance := fun _ _ => 0 }

/-- token1 after the `pool` fixture. -/
def tok1Fix : TokenState :=
  { balanceOf := fun a =>
      if a = 5 then 100000 * e18 else if a = 2 then 1000000 * e18 else 0,
    totalSupply := 1100000 * e18,
    allowance := fun _ _ => 0 }

/-- The pool after the `pool` fixture (reserves 100000e18 / 100000e18,
initial LP supply 1000e18) and `mint_lp(instance, 10e18)` from the
refuel tests' setup. -/
def poolFix : PoolState :=
  { bal0 := 100000 * e18, bal1 := 100000 * e18,
    totalSupply := 1010 * e18,
    coin0 := 10, coin1 := 11,
    lp_balances := fun a => if a = 6 then 10 * e18 else 0 }

/-- The fixture chain. -/
def chainFix : Chain :=
  { token0 := tok0Fix, token1 := tok1Fix, pool := poolFix, poolAddr := 5 }

/-- The fixture instance configuration at a given donation threshold:
owner `3`, pool set, `refuel_amount = 10e18`, fee recipient `7` (the
factory), initialized. -/
def refuelFix (thr : Nat) : RefuelState :=
  { owner := 3, pool := 5, refuel_lp_amount := 10 * e18,
    donation_share_threshold := thr, fee_recipient := 7,
    initialized := true }

/-- The fixture world of `test_refuel_success` / `test_refuel_with_fee`
(threshold parameter: 9000 for the success runs, 9900 for the
below-threshold run). -/
def wFix (thr : Nat) : World :=
  { chain := chainFix, refuel := refuelFix thr, selfAddr := 6 }

/-- Surgical threshold replacement, for stating the threshold-boundary
property: the same instance state with the donation threshold set to
`t`. -/
def Refuel.setThr (w : World) (t : Nat) : World :=
  { w with refuel := { w.refuel with donation_share_threshold := t } }

/-- The public operations of a Refuel instance, with the caller baked
in — the alphabet of reachable-state arguments. -/
inductive Op where
  | oInit (o fr : Nat)
  | oSetPool (c a : Nat)
  | oSetRefuelAmount (c a : Nat)
  | oSetThreshold (c b : Nat)
  | oTransferOwnership (c n : Nat)
  | oRefuel (c : Nat)
  | oWithdrawLp (c amt : Nat)
  | oWithdrawTokens (c : Nat) (tok : Bool) (amt : Nat)

/-- Run one instance operation, as an `Except`. -/
def Op.apply : Op → World → Except Err World
  | .oInit o fr, w => Refuel.init_once o fr w
  | .oSetPool c a, w => Refuel.set_pool c a w
  | .oSetRefuelAmount c a, w => Refuel.set_refuel_amount c a w
  | .oSetThreshold c b, w => Refuel.set_donation_threshold c b w
  | .oTransferOwnership c n, w => Refuel.transfer_ownership c n w
  | .oRefuel c, w => (Refuel.refuel c w).map (fun r => r.1)
  | .oWithdrawLp c amt, w => Refuel.withdraw_lp_tokens c amt w
  | .oWithdrawTokens c tok amt, w => Refuel.withdraw_tokens c tok amt w

/-- The world after an instance operation: reverts keep the old world. -/
def Op.exec (op : Op) (w : World) : World :=
  match op.apply w with
  | .ok w2 => w2
  | .error _ => w

/-- The world after a sequence of instance operations. -/
def execOps (ops : List Op) (w : World) : World :=
  ops.foldl (fun w2 op => op.exec w2) w

/-- The owner-gated admin operations of claim C6: the six instance
operations and the four factory operations, with their arguments. -/
inductive AdminOp where
  | aSetPool (a : Nat)
  | aSetRefuelAmount (a : Nat)
  | aSetThreshold (b : Nat)
  | aTransferOwnershipI (n : Nat)
  | aWithdrawLp (amt : Nat)
  | aWithdrawTokens (tok : Bool) (amt : Nat)
  | aUpdateBlueprint (b : Nat)
  | aWithdrawFees (dst amt : Nat)
  | aWithdrawAllFees (dst : Nat)
  | aTransferOwnershipF (n : Nat)

/-- The principal whose authorization gates the given admin operation:
the instance owner for instance operations, the factory owner for
factory operations. -/
def AdminOp.gate : AdminOp → Sys → Nat
  | .aSetPool _, s => s.world.refuel.owner
  | .aSetRefuelAmount _, s => s.world.refuel.owner
  | .aSetThreshold _, s => s.world.refuel.owner
  | .aTransferOwnershipI _, s => s.world.refuel.owner
  | .aWithdrawLp _, s => s.world.refuel.owner
  | .aWithdrawTokens _ _, s => s.world.refuel.owner
  | .aUpdateBlueprint _, s => s.factory.owner
  | .aWithdrawFees _ _, s => s.factory.owner
  | .aWithdrawAllFees _, s => s.factory.owner
  | .aTransferOwnershipF _, s => s.factory.owner

/-- Run one admin operation as caller `c`. -/
def AdminOp.apply : AdminOp → Nat → Sys → Except Err Sys
  | .aSetPool a, c, s =>
      (Refuel.set_pool c a s.world).map (fun w => { s with world := w })
  | .aSetRefuelAmount a, c, s =>
      (Refuel.set_refuel_amount c a s.world).map (fun w => { s with world := w })
  | .aSetThreshold b, c, s =>
      (Refuel.set_donation_threshold c b s.world).map
        (fun w => { s with world := w })
  | .aTransferOwnershipI n, c, s =>
      (Refuel.transfer_ownership c n s.world).map (fun w => { s with world := w })
  | .aWithdrawLp amt, c, s =>
      (Refuel.withdraw_lp_tokens c amt s.world).map (fun w => { s with world := w })
  | .aWithdrawTokens tok amt, c, s =>
      (Refuel.withdraw_tokens c tok amt s.world).map
        (fun w => { s with world := w })
  | .aUpdateBlueprint b, c, s => Factory.update_blueprint c b s
  | .aWithdrawFees dst amt, c, s => Factory.withdraw_fees c dst amt s
  | .aWithdrawAllFees dst, c, s => Factory.withdraw_all_fees c dst s
  | .aTransferOwnershipF n, c, s => Factory.transfer_ownership c n s

/-- The externally observable outcome of an admin transaction: on a
revert the pre-call system state persists. -/
def AdminOp.call (op : AdminOp) (c : Nat) (s : Sys) : Sys × Except Err Unit :=
  match op.apply c s with
  | .ok s2 => (s2, .ok ())
  | .error e => (s, .error e)

/-- A creation request against the factory: `deploy_refuel` with an
explicit fee recipient, or `deploy_refuel_simple`. -/
inductive Req where
  | rq (o fr : Nat)
  | rqSimple (o : Nat)

/-- Dispatch one creation request. -/
def Factory.applyReq (f : FactoryState) : Req → FactoryState × Nat
  | .rq o fr => Factory.deploy_refuel f o fr
  | .rqSimple o => Factory.deploy_refuel_simple f o

/-- Run a sequence of creation requests, collecting the returned
addresses in call order. -/
def Factory.runDeploys (f : FactoryState) : List Req → FactoryState × List Nat
  | [] => (f, [])
  | r :: rs =>
      let fa := Factory.applyReq f r
      let rest := Factory.runDeploys fa.1 rs
      (rest.1, fa.2 :: rest.2)

/-- A fixture world whose instance has no pool configured. -/
def wUnsetPool : World :=
  { chain := chainFix,
    refuel := { refuelFix 9500 with pool := 0 }, selfAddr := 6 }

/-- A fixture world whose instance has no refuel amount configured. -/
def wUnsetAmt : World :=
  { chain := chainFix,
    refuel := { refuelFix 9500 with refuel_lp_amount := 0 }, selfAddr := 6 }

/-- A fixture world whose instance is not yet initialized (a freshly
created blueprint copy before `initialize`). -/
def wUninit : World :=
  { chain := chainFix,
    refuel := { owner := 3, pool := 0, refuel_lp_amount := 0,
                donation_share_threshold := 9500, fee_recipient := 0,
                initialized := false },
    selfAddr := 6 }

/-- The fixture factory (owner `8`, blueprint `9`, own address `7`). -/
def factoryFix : FactoryState :=
  { owner := 8, blueprint := 9, deployments := [], addr := 7 }

/-- The fixture deployment: instance world plus factory. -/
def sysFix : Sys :=
  { world := wFix 9500, factory := factoryFix }

/-- A pool state with zero total supply. -/
def pTS0 : PoolState :=
  { bal0 := 3, bal1 := 4, totalSupply := 0, coin0 := 10, coin1 := 11,
    lp_balances := fun _ => 0 }

/-- A pool state with both reserves zero but positive supply. -/
def pZeroRes : PoolState :=
  { bal0 := 0, bal1 := 0, totalSupply := 5, coin0 := 10, coin1 := 11,
    lp_balances := fun _ => 0 }

/-- A pool state at which `calc_token_amount` overflows: tiny reserve,
small supply, astronomically large deposit amount. -/
def pOvf : PoolState :=
  { bal0 := 1, bal1 := 1, totalSupply := 4, coin0 := 10, coin1 := 11,
    lp_balances := fun _ => 0 }

/-! ## Helper lemmas -/

/-- Reduction of `Except` bind at a success value. -/
theorem bindOk {α β : Type} (a : α) (f : α → Except Err β) :
    (Except.ok a >>= f) = f a := rfl

/-- Reduction of `Except` bind at an error. -/
theorem bindErr {α β : Type} (e : Err) (f : α → Except Err β) :
    ((Except.error e : Except Err α) >>= f) = .error e := rfl

/-- `cmul` inversion: a successful checked multiplication returns the
product. -/
theorem cmul_ok {x y v : Nat} (h : cmul x y = .ok v) :
    v = x * y ∧ x * y < U256 := by
  unfold cmul at h
  split at h
  · exact ⟨(Except.ok.injEq _ _).mp h |>.symm, by assumption⟩
  · exact absurd h (by simp)

/-- `csub` inversion. -/
theorem csub_ok {x y v : Nat} (h : csub x y = .ok v) :
    v = x - y ∧ y ≤ x := by
  unfold csub at h
  split at h
  · exact ⟨(Except.ok.injEq _ _).mp h |>.symm, by assumption⟩
  · exact absurd h (by simp)

/-- `cadd` inversion. -/
theorem cadd_ok {x y v : Nat} (h : cadd x y = .ok v) :
    v = x + y ∧ x + y < U256 := by
  unfold cadd at h
  split at h
  · exact ⟨(Except.ok.injEq _ _).mp h |>.symm, by assumption⟩
  · exact absurd h (by simp)

/-- A successful LP transfer with distinct endpoints debits the sender
and credits the recipient, and nothing else changes. -/
theorem PoolState.transfer_ok {p p2 : PoolState} {s t a : Nat}
    (hst : t ≠ s) (h : p.transfer s t a = .ok p2) :
    p2 = { p with lp_balances :=
            (updFn (updFn p.lp_balances s (p.lp_balances s - a)) t
              (p.lp_balances t + a)) } ∧
    a ≤ p.lp_balances s := by
  simp only [PoolState.transfer, cadd] at h
  split at h
  · exact absurd h (by simp)
  · rename_i hge
    split at h
    · rw [bindOk] at h
      rcases (Except.ok.injEq _ _).mp h with h2
      refine ⟨?_, by omega⟩
      rw [← h2]
      have hb : updFn p.lp_balances s (p.lp_balances s - a) t = p.lp_balances t := by
        simp [updFn, hst]
      rw [hb]
    · exact absurd h (by simp [bindErr])

/-- Success inversion for `Except` bind. -/
theorem bind_eq_ok {α β : Type} {m : Except Err α} {f : α → Except Err β}
    {b : β} :
    (m >>= f) = .ok b ↔ ∃ a, m = .ok a ∧ f a = .ok b := by
  cases m <;> simp [bindOk, bindErr]

/-- Error inversion for `Except` bind. -/
theorem bind_eq_error {α β : Type} {m : Except Err α} {f : α → Except Err β}
    {e : Err} :
    (m >>= f) = .error e ↔
      m = .error e ∨ ∃ a, m = .ok a ∧ f a = .error e := by
  cases m <;> simp [bindOk, bindErr]

/-- An LP transfer only ever reverts for balance or overflow reasons —
never with `Unauthorized`. -/
theorem pool_transfer_error {p : PoolState} {s t a : Nat} {e : Err}
    (h : p.transfer s t a = .error e) :
    e = .InsufficientLpBalance ∨ e = .Overflow := by
  simp only [PoolState.transfer, cadd] at h
  split at h
  · exact .inl ((Except.error.injEq _ _).mp h).symm
  · split at h
    · rw [bindOk] at h
      exact absurd h (by simp)
    · rw [bindErr] at h
      exact .inr ((Except.error.injEq _ _).mp h).symm

/-- A coin transfer only ever reverts for balance or overflow reasons —
never with `Unauthorized`. -/
theorem token_transfer_error {t : TokenState} {s d a : Nat} {e : Err}
    (h : t.transfer s d a = .error e) :
    e = .InsufficientBalance ∨ e = .Overflow := by
  simp only [TokenState.transfer, cadd] at h
  split at h
  · exact .inl ((Except.error.injEq _ _).mp h).symm
  · split at h
    · rw [bindOk] at h
      exact absurd h (by simp)
    · rw [bindErr] at h
      exact .inr ((Except.error.injEq _ _).mp h).symm

/-- A successful `remove_liquidity` decrements the sender's LP balance
by the removed amount (and touches no other LP balance). -/
theorem Chain.remove_liquidity_ok {ch ch2 : Chain}
    {s amt m0 m1 rcv t0 t1 : Nat}
    (h : ch.remove_liquidity s amt m0 m1 rcv = .ok (ch2, t0, t1)) :
    ch2.pool.lp_balances
        = updFn ch.pool.lp_balances s (ch.pool.lp_balances s - amt) ∧
    amt ≤ ch.pool.lp_balances s := by
  simp only [Chain.remove_liquidity, bind_eq_ok] at h
  obtain ⟨n0, hn0, n0q, hq0, n1, hn1, n1q, hq1, b0, hb0, b1, hb1,
    ts, hts, tk0, htk0, tk1, htk1, lpS, hlpS, h⟩ := h
  obtain ⟨hv, hle⟩ := csub_ok hlpS
  obtain ⟨hch, -⟩ := Prod.mk.injEq .. |>.mp ((Except.ok.injEq _ _).mp h)
  subst hch hv
  exact ⟨rfl, hle⟩

/-- A successful donation `add_liquidity` credits the minted LP amount
to the zero address (and touches no other LP balance). -/
theorem Chain.add_liquidity_donation_ok {ch ch2 : Chain}
    {s a0 a1 mm rcv lp : Nat}
    (h : ch.add_liquidity s a0 a1 mm rcv true = .ok (ch2, lp)) :
    ch2.pool.lp_balances
        = updFn ch.pool.lp_balances 0 (ch.pool.lp_balances 0 + lp) := by
  simp only [Chain.add_liquidity, bind_eq_ok] at h
  obtain ⟨tk0, htk0, tk1, htk1, lpv, hlpv, b0, hb0, b1, hb1,
    ts, hts, v, hv, h⟩ := h
  obtain ⟨hvv, -⟩ := cadd_ok hv
  obtain ⟨hch, hlp⟩ := Prod.mk.injEq .. |>.mp ((Except.ok.injEq _ _).mp h)
  subst hch hlp hvv
  simp

/-- The 5% fee never exceeds the share amount it is computed from. -/
theorem fee_le_amount (R : Nat) : R * 500 / 10000 ≤ R := by
  have h1 : R * 500 ≤ R * 10000 := Nat.mul_le_mul_left R (by norm_num)
  have h2 : R * 10000 / 10000 = R := Nat.mul_div_cancel R (by norm_num)
  calc R * 500 / 10000 ≤ R * 10000 / 10000 := Nat.div_le_div_right h1
    _ = R := h2

/-- When the refuel steps run to completion, the fee recipient's LP
balance has grown by exactly the 5% fee and the instance's LP balance
has shrunk by exactly the configured share amount (which it held). -/
theorem Refuel.stepsCore_ok_lp {c selfA ownA poolH R feeR : Nat}
    {ch ch4 : Chain} {dd sh : Nat}
    (hfr1 : feeR ≠ selfA) (hfr0 : feeR ≠ 0) (hself0 : selfA ≠ 0)
    (h : Refuel.refuelStepsCore c selfA ownA poolH R feeR ch
          = .ok (ch4, dd, sh)) :
    ch4.pool.lp_balances feeR
        = ch.pool.lp_balances feeR + R * 500 / 10000 ∧
    ch4.pool.lp_balances selfA
        = ch.pool.lp_balances selfA - R ∧
    R ≤ ch.pool.lp_balances selfA := by
  simp only [Refuel.refuelStepsCore] at h
  split at h
  · exact absurd h (by simp)
  split at h
  · exact absurd h (by simp)
  split at h
  · exact absurd h (by simp)
  split at h
  · exact absurd h (by simp)
  rename_i hbal
  push_neg at hbal
  simp only [bind_eq_ok] at h
  obtain ⟨fp, hfp, pf, hpf, ⟨ch2, t0, t1⟩, hrem, ⟨chf, lpv⟩, hadd,
    sp, hsp, h⟩ := h
  obtain ⟨hfpv, -⟩ := cmul_ok hfp
  subst hfpv
  obtain ⟨hpf2, hfee_le⟩ := PoolState.transfer_ok hfr1 hpf
  subst hpf2
  obtain ⟨hch2, hremle⟩ := Chain.remove_liquidity_ok hrem
  obtain hchf := Chain.add_liquidity_donation_ok hadd
  obtain ⟨hch4, -⟩ := Prod.mk.injEq .. |>.mp ((Except.ok.injEq _ _).mp h)
  subst hch4
  rw [hchf, hch2]
  have hfee := fee_le_amount R
  refine ⟨?_, ?_, hbal⟩
  · simp [updFn, hfr0, hfr1]
  · simp [updFn, hself0, Ne.symm hfr1]
    omega

/-- Success inversion of a `refuel()` transaction: the steps ran to
completion and the committed world is the steps' chain. -/
theorem Refuel.callRefuel_ok {c : Nat} {w : World} {d : Nat}
    (hok : (Refuel.callRefuel c w).2 = .ok d) :
    ∃ ch4 sh, Refuel.refuelSteps c w = .ok (ch4, d, sh) ∧
      (Refuel.callRefuel c w).1 = { w with chain := ch4 } := by
  unfold Refuel.callRefuel Refuel.refuel at hok ⊢
  cases hs : Refuel.refuelSteps c w with
  | error e =>
    rw [hs] at hok
    simp at hok
  | ok r =>
    obtain ⟨ch4, dd, sh⟩ := r
    rw [hs] at hok
    dsimp only at hok
    by_cases hthr : w.refuel.donation_share_threshold ≤ sh
    · rw [if_pos hthr] at hok
      dsimp only at hok
      simp only [Except.ok.injEq] at hok
      subst hok
      refine ⟨ch4, sh, rfl, ?_⟩
      dsimp only
      rw [if_pos hthr]
    · rw [if_neg hthr] at hok
      simp at hok

/-! ## The claims -/

/-- C1: from any state in which the pool and the refuel amount are set
and the instance holds at least `refuel_amount` LP shares, a `refuel()`
call that fails with `ThresholdNotMet` leaves every external balance —
the instance's LP balance, the pool's reserves and total LP supply, and
the fee recipient's LP and coin balances — exactly as before the call. -/
theorem claim_C1_threshold_failure_atomic (w : World) (c : Nat)
    (hpool : w.refuel.pool ≠ 0)
    (hamt : 0 < w.refuel.refuel_lp_amount)
    (hbal : w.refuel.refuel_lp_amount ≤ w.chain.pool.lp_balances w.selfAddr)
    (hfail : (Refuel.callRefuel c w).2 = .error .ThresholdNotMet) :
    (Refuel.callRefuel c w).1.chain.pool.lp_balances w.selfAddr
        = w.chain.pool.lp_balances w.selfAddr ∧
    (Refuel.callRefuel c w).1.chain.pool.bal0 = w.chain.pool.bal0 ∧
    (Refuel.callRefuel c w).1.chain.pool.bal1 = w.chain.pool.bal1 ∧
    (Refuel.callRefuel c w).1.chain.pool.totalSupply
        = w.chain.pool.totalSupply ∧
    (Refuel.callRefuel c w).1.chain.pool.lp_balances w.refuel.fee_recipient
        = w.chain.pool.lp_balances w.refuel.fee_recipient ∧
    (Refuel.callRefuel c w).1.chain.token0.balanceOf w.refuel.fee_recipient
        = w.chain.token0.balanceOf w.refuel.fee_recipient ∧
    (Refuel.callRefuel c w).1.chain.token1.balanceOf w.refuel.fee_recipient
        = w.chain.token1.balanceOf w.refuel.fee_recipient := by
  have hfst : (Refuel.callRefuel c w).1 = w := by
    unfold Refuel.callRefuel at hfail ⊢
    cases hr : Refuel.refuel c w with
    | ok p =>
      rw [hr] at hfail
      simp at hfail
    | error e => rfl
  rw [hfst]
  exact ⟨rfl, rfl, rfl, rfl, rfl, rfl, rfl⟩

/-- Witness for C1: the `test_refuel_below_threshold` fixture (threshold
9900) does fail with `ThresholdNotMet`, and its balances are unchanged. -/
theorem claim_C1_witness :
    (Refuel.callRefuel 3 (wFix 9900)).2 = .error .ThresholdNotMet ∧
    ((Refuel.callRefuel 3 (wFix 9900)).1.chain.pool.lp_balances 6
        = (wFix 9900).chain.pool.lp_balances 6 ∧
      (Refuel.callRefuel 3 (wFix 9900)).1.chain.pool.bal0
        = (wFix 9900).chain.pool.bal0 ∧
      (Refuel.callRefuel 3 (wFix 9900)).1.chain.pool.bal1
        = (wFix 9900).chain.pool.bal1 ∧
      (Refuel.callRefuel 3 (wFix 9900)).1.chain.pool.totalSupply
        = (wFix 9900).chain.pool.totalSupply ∧
      (Refuel.callRefuel 3 (wFix 9900)).1.chain.pool.lp_balances 7
        = (wFix 9900).chain.pool.lp_balances 7 ∧
      (Refuel.callRefuel 3 (wFix 9900)).1.chain.token0.balanceOf 7
        = (wFix 9900).chain.token0.balanceOf 7 ∧
      (Refuel.callRefuel 3 (wFix 9900)).1.chain.token1.balanceOf 7
        = (wFix 9900).chain.token1.balanceOf 7) :=
  ⟨rfl, claim_C1_threshold_failure_atomic (wFix 9900) 3 (by decide)
    (by decide) (by decide) rfl⟩

/-- C2: a successful `refuel()` pays the fee recipient exactly
`⌊R * 500 / 10000⌋` LP shares (5% of the configured pre-removal share
amount `R`) and leaves the instance's own LP balance exactly `R` lower
than before (so 0 when it held exactly `R`); the instance indeed held at
least `R`. -/
theorem claim_C2_fee_and_balance (w : World) (c d : Nat)
    (hfr1 : w.refuel.fee_recipient ≠ w.selfAddr)
    (hfr0 : w.refuel.fee_recipient ≠ 0)
    (hself0 : w.selfAddr ≠ 0)
    (hok : (Refuel.callRefuel c w).2 = .ok d) :
    (Refuel.callRefuel c w).1.chain.pool.lp_balances w.refuel.fee_recipient
        = w.chain.pool.lp_balances w.refuel.fee_recipient
          + w.refuel.refuel_lp_amount * 500 / 10000 ∧
    (Refuel.callRefuel c w).1.chain.pool.lp_balances w.selfAddr
        = w.chain.pool.lp_balances w.selfAddr - w.refuel.refuel_lp_amount ∧
    w.refuel.refuel_lp_amount ≤ w.chain.pool.lp_balances w.selfAddr := by
  obtain ⟨ch4, sh, hs, hfst⟩ := Refuel.callRefuel_ok hok
  rw [hfst]
  unfold Refuel.refuelSteps at hs
  exact Refuel.stepsCore_ok_lp hfr1 hfr0 hself0 hs

/-- Witness for C2: the `test_refuel_with_fee` fixture (threshold 9000)
succeeds, pays exactly `0.5e18` LP to the factory, and zeroes the
instance's balance. -/
theorem claim_C2_witness :
    (Refuel.callRefuel 3 (wFix 9000)).2 = .ok 9214999999999999999 ∧
    ((Refuel.callRefuel 3 (wFix 9000)).1.chain.pool.lp_balances 7
        = (wFix 9000).chain.pool.lp_balances 7 + 10 * e18 * 500 / 10000 ∧
      (Refuel.callRefuel 3 (wFix 9000)).1.chain.pool.lp_balances 6
        = (wFix 9000).chain.pool.lp_balances 6 - 10 * e18 ∧
      10 * e18 ≤ (wFix 9000).chain.pool.lp_balances 6) :=
  ⟨rfl, claim_C2_fee_and_balance (wFix 9000) 3 9214999999999999999
    (by decide) (by decide) (by decide) rfl⟩

/-- C8: `get_lp_balance()` is total — it returns 0 when the pool is
unset and the pool's recorded LP balance of the instance when set. -/
theorem claim_C8_get_lp_balance_total (w : World) :
    (w.refuel.pool = 0 → Refuel.get_lp_balance w = 0) ∧
    (w.refuel.pool ≠ 0 →
      Refuel.get_lp_balance w = w.chain.pool.balanceOf w.selfAddr) := by
  constructor <;> intro h <;>
    simp [Refuel.get_lp_balance, PoolState.balanceOf, h]

/-- Witness for C8: with the pool unset the balance reads 0, with the
pool set it reads the pool's record (`10e18` in the fixture). -/
theorem claim_C8_witness :
    Refuel.get_lp_balance wUnsetPool = 0 ∧
    Refuel.get_lp_balance (wFix 9500)
      = (wFix 9500).chain.pool.balanceOf 6 :=
  ⟨(claim_C8_get_lp_balance_total wUnsetPool).1 rfl,
   (claim_C8_get_lp_balance_total (wFix 9500)).2 (by decide)⟩

/-- C10: the mock pool's slippage parameters are dead: `add_liquidity`
is invariant in `min_mint_amount` and `remove_liquidity` is invariant in
`min_amounts` — results and state changes are identical for any two
values. -/
theorem claim_C10_min_params_ignored (ch : Chain) (sender a0 a1 : Nat)
    (mm mm2 rcv : Nat) (donation : Bool)
    (amt mn0 mn1 mn0b mn1b rcv2 : Nat) :
    ch.add_liquidity sender a0 a1 mm rcv donation
        = ch.add_liquidity sender a0 a1 mm2 rcv donation ∧
    ch.remove_liquidity sender amt mn0 mn1 rcv2
        = ch.remove_liquidity sender amt mn0b mn1b rcv2 :=
  ⟨rfl, rfl⟩

/-- The refuel steps never read the donation threshold. -/
theorem Refuel.refuelSteps_setThr (c t : Nat) (w : World) :
    Refuel.refuelSteps c (Refuel.setThr w t) = Refuel.refuelSteps c w := rfl

/-- C3: when the efficiency the refuel steps compute is `e`, running the
same call with the threshold set exactly to `e` succeeds (inclusive
lower bound), and with the threshold one basis point above `e` (i.e. the
efficiency one basis point below the threshold) it fails with
`ThresholdNotMet`. -/
theorem claim_C3_threshold_boundary (w : World) (c e : Nat)
    (h : Refuel.refuelShare c w = .ok e) :
    ((Refuel.callRefuel c (Refuel.setThr w e)).2).isOk = true ∧
    (Refuel.callRefuel c (Refuel.setThr w (e + 1))).2
        = .error .ThresholdNotMet := by
  unfold Refuel.refuelShare at h
  cases hs : Refuel.refuelSteps c w with
  | error er =>
    rw [hs] at h
    simp [Except.map] at h
  | ok r =>
    obtain ⟨ch4, dd, sh⟩ := r
    rw [hs] at h
    simp only [Except.map, Except.ok.injEq] at h
    subst h
    constructor
    · unfold Refuel.callRefuel Refuel.refuel
      rw [Refuel.refuelSteps_setThr, hs]
      dsimp only [Refuel.setThr]
      rw [if_pos (le_refl sh)]
      rfl
    · unfold Refuel.callRefuel Refuel.refuel
      rw [Refuel.refuelSteps_setThr, hs]
      dsimp only [Refuel.setThr]
      rw [if_neg (by omega)]

/-- Witness for C3: the fixture computes efficiency 9214; with threshold
9214 the refuel succeeds, with threshold 9215 it fails. -/
theorem claim_C3_witness :
    Refuel.refuelShare 3 (wFix 9500) = .ok 9214 ∧
    (((Refuel.callRefuel 3 (Refuel.setThr (wFix 9500) 9214)).2).isOk = true ∧
      (Refuel.callRefuel 3 (Refuel.setThr (wFix 9500) (9214 + 1))).2
        = .error .ThresholdNotMet) :=
  ⟨rfl, claim_C3_threshold_boundary (wFix 9500) 3 9214 rfl⟩

/-- C7 counterexample: at the fixture pool state the view quotes 9699
basis points while `refuel()` computes 9214 (the view ignores the 5%
fee; refuel's efficiency is the donated amount relative to the full
`refuel_amount`).  This refutes the claim that the view equals the
efficiency `refuel()` would compute at the same pool state. -/
theorem claim_C7_counterexample :
    Refuel.calculate_donation_share (wFix 9000) = .ok 9699 ∧
    Refuel.refuelShare 3 (wFix 9000) = .ok 9214 ∧
    (9699 : Nat) ≠ 9214 :=
  ⟨rfl, rfl, by decide⟩

/-- C7 (amended): `calculate_donation_share()` is a pure, deterministic
projection of the current state — repeated calls agree, the result is
capped at 10000 basis points, and it fails with `PoolNotSet` when the
pool is unset and with `AmountNotSet` when the refuel amount is 0.  (It
does not in general equal the efficiency value `refuel()` computes,
which additionally accounts for the 5% fee.) -/
theorem claim_C7_view_projection (w : World) :
    (Refuel.calculate_donation_share w
        = Refuel.calculate_donation_share w) ∧
    (∀ r, Refuel.calculate_donation_share w = .ok r → r ≤ 10000) ∧
    (w.refuel.pool = 0 →
      Refuel.calculate_donation_share w = .error .PoolNotSet) ∧
    (w.refuel.pool ≠ 0 → w.refuel.refuel_lp_amount = 0 →
      Refuel.calculate_donation_share w = .error .AmountNotSet) := by
  refine ⟨rfl, ?_, ?_, ?_⟩
  · intro r hr
    unfold Refuel.calculate_donation_share at hr
    split at hr
    · simp at hr
    split at hr
    · simp at hr
    simp only [bind_eq_ok] at hr
    obtain ⟨n0, hn0, a0, ha0, n1, hn1, a1, ha1, lp, hlp, sh, hsh, hr⟩ := hr
    obtain h2 := (Except.ok.injEq _ _).mp hr
    subst h2
    exact Nat.min_le_right _ _
  · intro h
    unfold Refuel.calculate_donation_share
    rw [if_pos h]
  · intro h1 h2
    unfold Refuel.calculate_donation_share
    rw [if_neg h1, if_pos h2]

/-- Witness for C7 (amended): the cap and both error paths, exercised at
the fixtures. -/
theorem claim_C7_witness :
    (9699 : Nat) ≤ 10000 ∧
    Refuel.calculate_donation_share wUnsetPool = .error .PoolNotSet ∧
    Refuel.calculate_donation_share wUnsetAmt = .error .AmountNotSet :=
  ⟨(claim_C7_view_projection (wFix 9000)).2.1 9699 rfl,
   (claim_C7_view_projection wUnsetPool).2.2.1 rfl,
   (claim_C7_view_projection wUnsetAmt).2.2.2 (by decide) rfl⟩

/-- A checked multiplication can only revert with `Overflow`. -/
theorem cmul_error {x y : Nat} {e : Err} (h : cmul x y = .error e) :
    e = .Overflow := by
  unfold cmul at h
  split at h
  · simp at h
  · exact ((Except.error.injEq _ _).mp h).symm

/-- A checked division by a positive divisor never reverts. -/
theorem cdiv_pos_ne_error {x y : Nat} (hy : 0 < y) (e : Err) :
    cdiv x y ≠ .error e := by
  unfold cdiv
  rw [if_neg (by omega)]
  simp

/-- The deposit-haircut tail of `_calc_token_amount_internal` can only
revert by multiplication overflow. -/
theorem finPart_error {x y : Nat} {d : Bool} {e : Err}
    (h : (if d = true then do
            let m ← cmul (min x y) 97
            Except.ok (m / 100)
          else Except.ok (min x y)) = .error e) :
    e = .Overflow := by
  split at h
  · rw [bind_eq_error] at h
    rcases h with h | ⟨m, hm, h⟩
    · exact cmul_error h
    · simp at h
  · simp at h

/-- The second-coin stage of `_calc_token_amount_internal` (guarded
division, then the deposit tail) can only revert by multiplication
overflow. -/
theorem tailPart_error {a1 ts bal1 x : Nat} {d : Bool} {e : Err}
    (h : (if 0 < bal1 then do
            let n ← cmul a1 ts
            let y ← cdiv n bal1
            if d = true then do
              let m ← cmul (min x y) 97
              Except.ok (m / 100)
            else Except.ok (min x y)
          else do
            let y ← Except.ok 0
            if d = true then do
              let m ← cmul (min x y) 97
              Except.ok (m / 100)
            else Except.ok (min x y)) = .error e) :
    e = .Overflow := by
  split at h
  · rename_i hb
    rw [bind_eq_error] at h
    rcases h with h | ⟨n, hn, h⟩
    · exact cmul_error h
    · rw [bind_eq_error] at h
      rcases h with h | ⟨y, hy, h⟩
      · exact absurd h (cdiv_pos_ne_error hb e)
      · exact finPart_error h
  · rw [bindOk] at h
    exact finPart_error h

/-- C9 counterexample: the mock pool's `calc_token_amount` is not total
over `uint256` inputs — at reserve 1, supply 4 and deposit amount
`2^255` the multiplication `amounts[0] * totalSupply` exceeds `2^256`
and the call reverts, so a basis-points result is not always produced. -/
theorem claim_C9_counterexample :
    pOvf.calc_token_amount (2 ^ 255) 0 true = .error .Overflow := rfl

/-- C9 (amended): `calc_token_amount` delegates to
`_calc_token_amount_internal`, which never divides by zero: it returns 0
when the total supply is 0, its only possible revert is `uint256`
multiplication overflow (never a division error), and with both
reserves zero the guards yield 0. -/
theorem claim_C9_calc_division_guards (p : PoolState) (a0 a1 : Nat)
    (d : Bool) :
    (p.calc_token_amount a0 a1 d = p.calc_token_amount_internal a0 a1 d) ∧
    (p.totalSupply = 0 → p.calc_token_amount a0 a1 d = .ok 0) ∧
    (∀ e, p.calc_token_amount a0 a1 d = .error e → e = .Overflow) ∧
    (p.bal0 = 0 → p.bal1 = 0 → p.calc_token_amount a0 a1 d = .ok 0) := by
  refine ⟨rfl, ?_, ?_, ?_⟩
  · intro h
    simp [PoolState.calc_token_amount, PoolState.calc_token_amount_internal, h]
  · intro e he
    simp only [PoolState.calc_token_amount,
      PoolState.calc_token_amount_internal] at he
    split at he
    · simp at he
    · split at he
      · rename_i hb0
        rw [bind_eq_error] at he
        rcases he with h | ⟨n, hn, he⟩
        · exact cmul_error h
        · rw [bind_eq_error] at he
          rcases he with h | ⟨y, hy, he⟩
          · exact absurd h (cdiv_pos_ne_error hb0 e)
          · exact tailPart_error he
      · rw [bindOk] at he
        exact tailPart_error he
  · intro h0 h1
    simp only [PoolState.calc_token_amount,
      PoolState.calc_token_amount_internal, h0, h1]
    split
    · rfl
    · rw [if_neg (by omega), bindOk, if_neg (by omega), bindOk]
      cases d
      · rfl
      · rfl

/-- Witness for C9 (amended): the zero-supply and zero-reserve paths
produce 0, and the overflow input errs only with `Overflow`. -/
theorem claim_C9_witness :
    pTS0.calc_token_amount 5 7 true = .ok 0 ∧
    pZeroRes.calc_token_amount 5 7 true = .ok 0 ∧
    (Err.Overflow = Err.Overflow) :=
  ⟨(claim_C9_calc_division_guards pTS0 5 7 true).2.1 rfl,
   (claim_C9_calc_division_guards pZeroRes 5 7 true).2.2.2 rfl rfl,
   (claim_C9_calc_division_guards pOvf (2 ^ 255) 0 true).2.2.1 .Overflow (by rfl)⟩

/-- A successful `refuel()` never touches the instance's configuration
record. -/
theorem Refuel.refuel_ok_refuel_eq {c : Nat} {w : World} {p : World × Nat}
    (h : Refuel.refuel c w = .ok p) :
    p.1.refuel = w.refuel := by
  unfold Refuel.refuel at h
  cases hs : Refuel.refuelSteps c w with
  | error e =>
    rw [hs] at h
    simp at h
  | ok r =>
    obtain ⟨ch, dd, sh⟩ := r
    rw [hs] at h
    dsimp only at h
    split at h
    · obtain h2 := (Except.ok.injEq _ _).mp h
      subst h2
      rfl
    · simp at h

/-- A successful instance operation preserves a set `initialized`
latch. -/
theorem Op.apply_ok_init {op : Op} {w w2 : World}
    (heq : op.apply w = .ok w2) (h : w.refuel.initialized = true) :
    w2.refuel.initialized = true := by
  cases op with
  | oInit o fr =>
    simp only [Op.apply, Refuel.init_once] at heq
    rw [if_pos h] at heq
    exact absurd heq (by simp)
  | oSetPool c a =>
    simp only [Op.apply, Refuel.set_pool] at heq
    split at heq
    · exact absurd heq (by simp)
    split at heq
    · exact absurd heq (by simp)
    · obtain h2 := (Except.ok.injEq _ _).mp heq
      subst h2
      exact h
  | oSetRefuelAmount c a =>
    simp only [Op.apply, Refuel.set_refuel_amount] at heq
    split at heq
    · exact absurd heq (by simp)
    split at heq
    · exact absurd heq (by simp)
    · obtain h2 := (Except.ok.injEq _ _).mp heq
      subst h2
      exact h
  | oSetThreshold c b =>
    simp only [Op.apply, Refuel.set_donation_threshold] at heq
    split at heq
    · exact absurd heq (by simp)
    split at heq
    · exact absurd heq (by simp)
    · obtain h2 := (Except.ok.injEq _ _).mp heq
      subst h2
      exact h
  | oTransferOwnership c n =>
    simp only [Op.apply, Refuel.transfer_ownership] at heq
    split at heq
    · exact absurd heq (by simp)
    split at heq
    · exact absurd heq (by simp)
    · obtain h2 := (Except.ok.injEq _ _).mp heq
      subst h2
      exact h
  | oRefuel c =>
    simp only [Op.apply] at heq
    cases hr : Refuel.refuel c w with
    | error e =>
      rw [hr] at heq
      simp [Except.map] at heq
    | ok p =>
      rw [hr] at heq
      simp only [Except.map, Except.ok.injEq] at heq
      subst heq
      rw [Refuel.refuel_ok_refuel_eq hr]
      exact h
  | oWithdrawLp c amt =>
    simp only [Op.apply, Refuel.withdraw_lp_tokens] at heq
    split at heq
    · exact absurd heq (by simp)
    · rw [bind_eq_ok] at heq
      obtain ⟨pf, hpf, heq⟩ := heq
      obtain h2 := (Except.ok.injEq _ _).mp heq
      subst h2
      exact h
  | oWithdrawTokens c tok amt =>
    simp only [Op.apply, Refuel.withdraw_tokens] at heq
    split at heq
    · exact absurd heq (by simp)
    split at heq
    · rw [bind_eq_ok] at heq
      obtain ⟨tf, htf, heq⟩ := heq
      obtain h2 := (Except.ok.injEq _ _).mp heq
      subst h2
      exact h
    · rw [bind_eq_ok] at heq
      obtain ⟨tf, htf, heq⟩ := heq
      obtain h2 := (Except.ok.injEq _ _).mp heq
      subst h2
      exact h

/-- Every instance operation preserves a set `initialized` latch: no
operation ever resets it, reverted or not. -/
theorem Op.exec_preserves_init (op : Op) (w : World)
    (h : w.refuel.initialized = true) :
    (op.exec w).refuel.initialized = true := by
  unfold Op.exec
  split
  · rename_i w2 heq
    exact Op.apply_ok_init heq h
  · exact h

/-- C5: `initialize` succeeds at most once.  On an uninitialized
instance it records owner and fee recipient and flips the latch; from
any state with the latch set, after any sequence of instance operations
the latch is still set and a further `initialize` fails with
`AlreadyInitialized`. -/
theorem claim_C5_init_latch (w : World) (ops : List Op) (o fr : Nat) :
    (w.refuel.initialized = false →
      Refuel.init_once o fr w
        = .ok { w with refuel := ({ w.refuel with owner := o, fee_recipient := fr, initialized := true }) }) ∧
    (w.refuel.initialized = true →
      (execOps ops w).refuel.initialized = true ∧
      Refuel.init_once o fr (execOps ops w)
        = .error .AlreadyInitialized) := by
  constructor
  · intro h
    simp [Refuel.init_once, h]
  · intro h
    have hpres : (execOps ops w).refuel.initialized = true := by
      induction ops generalizing w with
      | nil => exact h
      | cons op rest ih => exact ih (op.exec w) (Op.exec_preserves_init op w h)
    exact ⟨hpres, by simp [Refuel.init_once, hpres]⟩

/-- Witness for C5: initializing the fresh fixture once succeeds and
sets the fields; after a further operation on the initialized fixture,
re-initialization still fails. -/
theorem claim_C5_witness :
    Refuel.init_once 3 7 wUninit
        = .ok { wUninit with refuel := ({ wUninit.refuel with owner := 3, fee_recipient := 7, initialized := true }) } ∧
    (execOps [.oSetPool 3 5] (wFix 9500)).refuel.initialized = true ∧
    Refuel.init_once 3 7 (execOps [.oSetPool 3 5] (wFix 9500))
        = .error .AlreadyInitialized :=
  ⟨(claim_C5_init_latch wUninit [] 3 7).1 rfl,
   ((claim_C5_init_latch (wFix 9500) [.oSetPool 3 5] 3 7).2 rfl).1,
   ((claim_C5_init_latch (wFix 9500) [.oSetPool 3 5] 3 7).2 rfl).2⟩

/-- C6: every owner-gated operation — `set_pool`, `set_refuel_amount`,
`set_donation_threshold`, `transfer_ownership`, `withdraw_lp_tokens`,
`withdraw_tokens` on the instance and `update_blueprint`,
`withdraw_fees`, `withdraw_all_fees`, `transfer_ownership` on the
factory — fails with `Unauthorized` and changes no state when the caller
is not the gating owner, and never fails with `Unauthorized` when the
caller is the gating owner. -/
theorem claim_C6_owner_gating (op : AdminOp) (c : Nat) (s : Sys) :
    (c ≠ op.gate s → op.call c s = (s, .error .Unauthorized)) ∧
    (c = op.gate s → (op.call c s).2 ≠ .error .Unauthorized) := by
  constructor
  · intro h
    cases op <;>
      simp only [AdminOp.gate] at h <;>
      simp [AdminOp.call, AdminOp.apply, AdminOp.gate, Refuel.set_pool,
        Refuel.set_refuel_amount, Refuel.set_donation_threshold,
        Refuel.transfer_ownership, Refuel.withdraw_lp_tokens,
        Refuel.withdraw_tokens, Factory.update_blueprint,
        Factory.withdraw_fees, Factory.withdraw_all_fees,
        Factory.transfer_ownership, Except.map, h]
  · intro h
    subst h
    cases op with
    | aSetPool a =>
      simp only [AdminOp.call, AdminOp.apply, AdminOp.gate, Refuel.set_pool]
      rw [if_neg (by simp)]
      by_cases hz : a = 0
      · rw [if_pos hz]
        simp [Except.map]
      · rw [if_neg hz]
        simp [Except.map]
    | aSetRefuelAmount a =>
      simp only [AdminOp.call, AdminOp.apply, AdminOp.gate, Refuel.set_refuel_amount]
      rw [if_neg (by simp)]
      by_cases hz : a = 0
      · rw [if_pos hz]
        simp [Except.map]
      · rw [if_neg hz]
        simp [Except.map]
    | aSetThreshold b =>
      simp only [AdminOp.call, AdminOp.apply, AdminOp.gate, Refuel.set_donation_threshold]
      rw [if_neg (by simp)]
      by_cases hz : 10000 < b
      · rw [if_pos hz]
        simp [Except.map]
      · rw [if_neg hz]
        simp [Except.map]
    | aTransferOwnershipI n =>
      simp only [AdminOp.call, AdminOp.apply, AdminOp.gate, Refuel.transfer_ownership]
      rw [if_neg (by simp)]
      by_cases hz : n = 0
      · rw [if_pos hz]
        simp [Except.map]
      · rw [if_neg hz]
        simp [Except.map]
    | aWithdrawLp amt =>
      simp only [AdminOp.call, AdminOp.apply, AdminOp.gate,
        Refuel.withdraw_lp_tokens]
      rw [if_neg (by simp)]
      cases hp : s.world.chain.pool.transfer s.world.selfAddr
          s.world.refuel.owner amt with
      | error e =>
        rw [bindErr]
        rcases pool_transfer_error hp with h1 | h1 <;> simp [h1, Except.map]
      | ok pf =>
        rw [bindOk]
        simp [Except.map]
    | aWithdrawTokens tok amt =>
      simp only [AdminOp.call, AdminOp.apply, AdminOp.gate,
        Refuel.withdraw_tokens]
      rw [if_neg (by simp)]
      cases tok with
      | true =>
        rw [if_pos rfl]
        cases hp : s.world.chain.token0.transfer s.world.selfAddr
            s.world.refuel.owner amt with
        | error e =>
          rw [bindErr]
          rcases token_transfer_error hp with h1 | h1 <;> simp [h1, Except.map]
        | ok tf =>
          rw [bindOk]
          simp [Except.map]
      | false =>
        rw [if_neg (by simp)]
        cases hp : s.world.chain.token1.transfer s.world.selfAddr
            s.world.refuel.owner amt with
        | error e =>
          rw [bindErr]
          rcases token_transfer_error hp with h1 | h1 <;> simp [h1, Except.map]
        | ok tf =>
          rw [bindOk]
          simp [Except.map]
    | aUpdateBlueprint b =>
      simp [AdminOp.call, AdminOp.apply, AdminOp.gate,
        Factory.update_blueprint]
    | aWithdrawFees dst amt =>
      simp only [AdminOp.call, AdminOp.apply, AdminOp.gate,
        Factory.withdraw_fees]
      rw [if_neg (by simp)]
      cases hp : s.world.chain.pool.transfer s.factory.addr dst amt with
      | error e =>
        rw [bindErr]
        rcases pool_transfer_error hp with h1 | h1 <;> simp [h1, Except.map]
      | ok pf =>
        rw [bindOk]
        simp
    | aWithdrawAllFees dst =>
      simp only [AdminOp.call, AdminOp.apply, AdminOp.gate,
        Factory.withdraw_all_fees]
      rw [if_neg (by simp)]
      cases hp : s.world.chain.pool.transfer s.factory.addr dst
          (s.world.chain.pool.lp_balances s.factory.addr) with
      | error e =>
        rw [bindErr]
        rcases pool_transfer_error hp with h1 | h1 <;> simp [h1, Except.map]
      | ok pf =>
        rw [bindOk]
        simp
    | aTransferOwnershipF n =>
      simp only [AdminOp.call, AdminOp.apply, AdminOp.gate, Factory.transfer_ownership]
      rw [if_neg (by simp)]
      by_cases hz : n = 0
      · rw [if_pos hz]
        simp [Except.map]
      · rw [if_neg hz]
        simp [Except.map]

/-- Witness for C6: on the fixture system, a non-owner `set_pool` call
reverts with `Unauthorized` leaving the state untouched, and the owner's
call does not hit the authorization check. -/
theorem claim_C6_witness :
    AdminOp.call (.aSetPool 5) 4 sysFix = (sysFix, .error .Unauthorized) ∧
    (AdminOp.call (.aSetPool 5) 3 sysFix).2 ≠ .error .Unauthorized :=
  ⟨(claim_C6_owner_gating (.aSetPool 5) 4 sysFix).1 (by decide),
   (claim_C6_owner_gating (.aSetPool 5) 3 sysFix).2 rfl⟩

/-- Both creation entry points append exactly one fresh address to the
ledger. -/
theorem Factory.applyReq_eq (f : FactoryState) (r : Req) :
    Factory.applyReq f r
      = ({ f with deployments :=
            (f.deployments ++ [Factory.fresh_address f]) },
         Factory.fresh_address f) := by
  cases r <;> rfl

/-- Running a sequence of creation requests appends exactly the returned
addresses, and those are the consecutive CREATE addresses of the
factory. -/
theorem Factory.runDeploys_spec (rs : List Req) (f : FactoryState) :
    (Factory.runDeploys f rs).1.deployments
        = f.deployments ++ (Factory.runDeploys f rs).2 ∧
    (Factory.runDeploys f rs).2
        = (List.range rs.length).map
            (fun k => f.addr + f.deployments.length + k + 1) := by
  induction rs generalizing f with
  | nil => simp [Factory.runDeploys]
  | cons r rs ih =>
    obtain ⟨ih1, ih2⟩ := ih ({ f with deployments :=
      (f.deployments ++ [Factory.fresh_address f]) })
    constructor
    · simp only [Factory.runDeploys, Factory.applyReq_eq]
      rw [ih1]
      simp [Factory.fresh_address]
    · simp only [Factory.runDeploys, Factory.applyReq_eq]
      rw [ih2]
      simp only [Factory.fresh_address, List.length_append,
        List.length_cons, List.length_nil]
      rw [List.range_succ_eq_map, List.map_cons, List.map_map]
      refine List.cons_eq_cons.mpr ⟨by omega, ?_⟩
      apply List.map_congr_left
      intro k hk
      show f.addr + (f.deployments.length + 1) + k + 1
          = f.addr + f.deployments.length + (k + 1) + 1
      omega

/-- C4: from a fresh factory, after any sequence of successful create
calls the deployment count equals the number of calls, `get_deployment`
returns each created address at its creation index (ledger equals the
returned addresses, in order, with no duplicates), and every index at or
beyond the count fails with `IndexOutOfRange`. -/
theorem claim_C4_registry_ledger (f : FactoryState) (rs : List Req)
    (hfresh : f.deployments = []) :
    Factory.deployment_count (Factory.runDeploys f rs).1 = rs.length ∧
    (Factory.runDeploys f rs).2.length = rs.length ∧
    (Factory.runDeploys f rs).1.deployments = (Factory.runDeploys f rs).2 ∧
    (∀ i (h : i < (Factory.runDeploys f rs).2.length),
        Factory.get_deployment (Factory.runDeploys f rs).1 i
          = .ok ((Factory.runDeploys f rs).2.get ⟨i, h⟩)) ∧
    (Factory.runDeploys f rs).2.Nodup ∧
    (∀ i, rs.length ≤ i →
        Factory.get_deployment (Factory.runDeploys f rs).1 i
          = .error .IndexOutOfRange) := by
  obtain ⟨h1, h2⟩ := Factory.runDeploys_spec rs f
  rw [hfresh] at h1
  simp only [List.nil_append] at h1
  have hlen : (Factory.runDeploys f rs).2.length = rs.length := by
    rw [h2]
    simp
  refine ⟨?_, hlen, h1, ?_, ?_, ?_⟩
  · unfold Factory.deployment_count
    rw [h1, hlen]
  · intro i hi
    unfold Factory.get_deployment
    have hi2 : i < (Factory.runDeploys f rs).1.deployments.length := by
      rw [h1]
      exact hi
    rw [dif_pos hi2]
    exact congrArg Except.ok (List.get_of_eq h1 ⟨i, hi2⟩)
  · rw [h2]
    refine List.Nodup.map ?_ (List.nodup_range _)
    intro a b hab
    have hab2 : f.addr + f.deployments.length + a + 1
        = f.addr + f.deployments.length + b + 1 := hab
    omega
  · intro i hge
    unfold Factory.get_deployment
    have hni : ¬ i < (Factory.runDeploys f rs).1.deployments.length := by
      rw [h1, hlen]
      omega
    rw [dif_neg hni]

/-- Witness for C4: two creations on the fresh fixture factory yield
count 2, the two addresses in order, distinct, and an out-of-range
failure at index 2. -/
theorem claim_C4_witness :
    Factory.deployment_count
        (Factory.runDeploys factoryFix [.rqSimple 3, .rq 4 7]).1 = 2 ∧
    (Factory.runDeploys factoryFix [.rqSimple 3, .rq 4 7]).2.Nodup ∧
    Factory.get_deployment
        (Factory.runDeploys factoryFix [.rqSimple 3, .rq 4 7]).1 2
      = .error .IndexOutOfRange :=
  ⟨(claim_C4_registry_ledger factoryFix [.rqSimple 3, .rq 4 7] rfl).1,
   (claim_C4_registry_ledger factoryFix [.rqSimple 3, .rq 4 7]
      rfl).2.2.2.2.1,
   (claim_C4_registry_ledger factoryFix [.rqSimple 3, .rq 4 7]
      rfl).2.2.2.2.2 2 (by decide)⟩
